import Mathlib

/-!
Verification of the disc-e Discord bot (Go, four program evolutions).

The repository contains four evolutions of the same bot:
  * `main.go` (first program): DALL-E Mini backend, retrying fetch loop,
    image compositing, no status markers (markers are a TODO comment),
    handler restricted to one hard-coded user id;
  * `src/unnamed/part_001`: DALL-E Mini backend with retrying fetch loop,
    compositing, help short-circuit and emoji status markers;
  * `main.go` (second program): OpenAI backend, single-shot fetch,
    help short-circuit and markers;
  * `src/unnamed/part_000`: OpenAI backend, single-shot fetch, markers,
    special-user reply, and a reaction-triggered "regenerate" correlator.

Go strings are modelled as lists of characters (the prompts in the claims
are printable ASCII, where Go byte indexing and Lean character indexing
agree, and Go `strings.ToLower` agrees with `Char.toLower`).
-/

/-- A Go string, modelled as a list of characters (ASCII fragment). -/
abbrev GoStr := List Char

/-- Model of `strings.ToLower` (character-wise lowering; ASCII fragment). -/
def lowerL (s : GoStr) : GoStr := s.map Char.toLower

/-- The ASCII whitespace recognized by `strings.TrimSpace`. -/
def isGoSpace (ch : Char) : Bool :=
  ch == ' ' || ch == '\t' || ch == '\n' || ch == '\x0b' || ch == '\x0c' || ch == '\r'

/-- Model of `strings.TrimSpace`: strip whitespace from both ends. -/
def trimSpaceL (s : GoStr) : GoStr :=
  ((s.dropWhile isGoSpace).reverse.dropWhile isGoSpace).reverse

/-- The command prefix literal `"/dalle "` (7 characters). -/
def dalleL : GoStr := "/dalle ".toList

/-- The help literal. -/
def helpL : GoStr := "help".toList

/--
Model of the trigger parser shared by part_000 (lines 175-191), part_001
(lines 93-109) and the second program of main.go:

  content := strings.ToLower(m.Content)
  if len(content) <= 7 || content[:7] != "/dalle " || m.Author.ID == s.State.User.ID { return }
  prompt := strings.TrimSpace(content[7:])

Returns the prompt stored in the constructed ImageRequest, or `none` when
the event is rejected.  Note that the whole message is lowercased before
the prompt is sliced out of it.
-/
def parsePromptGo (bot author : String) (content : GoStr) : Option GoStr :=
  let c := lowerL content
  if c.length ≤ 7 ∨ c.take 7 ≠ dalleL ∨ author = bot then none
  else some (trimSpaceL (c.drop 7))

/-! ### Generation client: retrying shape (`fetchImages`, part_001 lines 164-213
and the first program of main.go, lines 144-193)

The external endpoint is modelled as a schedule assigning to every attempt
index the outcome of `client.Do` and the wall-clock time the attempt takes
(abstract time units; part_001 additionally truncates the measured duration
to whole seconds, which none of the claims depend on). -/

/-- Outcome of reading and unmarshalling a response body on the 200 path. -/
inductive RespBody where
  /-- `ioutil.ReadAll` fails with this error text. -/
  | readErr (e : String)
  /-- `json.Unmarshal` fails with this error text. -/
  | malformed (e : String)
  /-- The body unmarshals to `ImageResponse{Images: imgs}`. -/
  | images (imgs : List GoStr)
deriving DecidableEq

/-- Outcome of one `client.Do(req)` call. -/
inductive DoOutcome where
  /-- `client.Do` itself fails: it returns `(nil, err)`. -/
  | transportErr (e : String)
  /-- The call completes with this HTTP status and body. -/
  | response (status : Nat) (body : RespBody)
deriving DecidableEq

/-- One scheduled attempt: its `client.Do` outcome and its elapsed time. -/
structure AttemptSpec where
  outcome : DoOutcome
  elapsed : Nat
deriving DecidableEq

/-- What `fetchImages` hands back to its caller. -/
inductive FetchResult where
  /-- `return r.Images, nil`. -/
  | ok (imgs : List GoStr)
  /-- `return nil, err` with this error text. -/
  | err (msg : String)
  /-- The goroutine panics: on a transport error the code runs
  `resp.Body.Close()` on the nil response before its `return`. -/
  | crashed
deriving DecidableEq

/-- Everything observable about one `fetchImages` run: the returned value,
the write-once `imgReq.Duration` field (`none` = never written), the number
of `client.Do` calls that were issued, and the lines printed. -/
structure FetchOutput where
  result : FetchResult
  duration : Option Nat
  attempts : Nat
  log : List String
deriving DecidableEq

/-- The log line `"[..] Success after %d tries (%v)"`. -/
def successMsg (tries dur : Nat) : String :=
  "Success after " ++ toString tries ++ " tries (" ++ toString dur ++ ")"

/-- The exhaustion error `"Failed to get images for request (%v)\n"`.
It interpolates only the elapsed duration. -/
def exhaustMsg (dur : Nat) : String :=
  "Failed to get images for request (" ++ toString dur ++ ")\n"

/-- The retry loop `for i := 0; i < config.DalleRetries; i++ { ... }`.
`remaining` counts the iterations left, `i` is the loop index, `acc` the
wall-clock time elapsed since `start`. -/
def fetchLoop (sched : Nat → AttemptSpec) : Nat → Nat → Nat → FetchOutput
  | 0, i, acc =>
      { result := .err (exhaustMsg acc), duration := some acc, attempts := i, log := [] }
  | remaining + 1, i, acc =>
      let a := sched i
      match a.outcome with
      | .transportErr _ =>
          { result := .crashed, duration := none, attempts := i + 1, log := [] }
      | .response status body =>
          if status = 200 then
            let d := acc + a.elapsed
            match body with
            | .readErr e =>
                { result := .err e, duration := some d, attempts := i + 1,
                  log := [successMsg (i + 1) d] }
            | .malformed e =>
                { result := .err e, duration := some d, attempts := i + 1,
                  log := [successMsg (i + 1) d] }
            | .images imgs =>
                { result := .ok imgs, duration := some d, attempts := i + 1,
                  log := [successMsg (i + 1) d] }
          else
            fetchLoop sched remaining (i + 1) (acc + a.elapsed)

/-- Model of the retrying `fetchImages`: run the loop with the configured
attempt budget, prepending the initial "Fetching images" log line. -/
def fetchImagesGo (prompt : GoStr) (retries : Nat) (sched : Nat → AttemptSpec) :
    FetchOutput :=
  let o := fetchLoop sched retries 0 0
  { o with log := ("Fetching images for prompt " ++ String.mk prompt) :: o.log }

/-- Total elapsed time of attempts `i, i+1, ..., i+n-1` of a schedule. -/
def totElapsed (sched : Nat → AttemptSpec) : Nat → Nat → Nat
  | _, 0 => 0
  | i, n + 1 => (sched i).elapsed + totElapsed sched (i + 1) n

/-- An attempt that completed with a non-success HTTP status. -/
def isNon200 (a : AttemptSpec) : Prop :=
  ∃ st b, a.outcome = .response st b ∧ st ≠ 200

/-! ### Generation client: single-shot shape (`fetchImage`, part_000 lines
237-277 and the second program of main.go)

The response body is modelled at the granularity the code observes it:
the outcome of `json.Unmarshal` into `ImageResponse{Created, Data}`, where
`Data` is a list of string-to-string maps (association lists). -/

/-- Outcome of reading and unmarshalling the single-shot response body. -/
inductive OABody where
  | readErr (e : String)
  | malformed (e : String)
  /-- The body unmarshals; `data` is the `Data` field. -/
  | parsed (data : List (List (String × String)))
deriving DecidableEq

/-- Outcome of the single `client.Do` call of `fetchImage`. -/
inductive SingleDo where
  | transportErr (e : String)
  | response (status : Nat) (body : OABody)
deriving DecidableEq

/-- What `fetchImage` hands back to its caller. -/
inductive SingleResult where
  | ok (url : String)
  | err (msg : String)
  /-- The goroutine panics: `r.Data[0]` indexes an empty slice. -/
  | crashed
deriving DecidableEq

/-- Model of the single-shot `fetchImage`.  The HTTP status code is never
inspected.  A parse failure is returned as an error; when the body parses,
the code evaluates `r.Data[0]["url"]` with no emptiness check (Go map
indexing yields the zero value `""` when the key is absent). -/
def fetchImageGo (d : SingleDo) : SingleResult :=
  match d with
  | .transportErr e => .err e
  | .response _ body =>
      match body with
      | .readErr e => .err e
      | .malformed e => .err e
      | .parsed data =>
          match data with
          | [] => .crashed
          | entry :: _ => .ok ((entry.lookup "url").getD "")

/-! ### Status annotator (`setStatus` in part_001 lines 275-285, `swapStatus`
in part_000 lines 279-289): remove the old marker, then add the new one.
The two Discord calls are modelled by their outcomes (`none` = success,
`some e` = the API returned error `e`); the model also records which marker
operations the function actually attempted. -/

/-- One attempted marker operation on the trigger message. -/
inductive MarkAct where
  | rm (emoji : String)
  | add (emoji : String)
deriving DecidableEq

/-- Model of the two-step marker swap: `MessageReactionRemove(old)` then
`MessageReactionAdd(new)`, each attempted at most once, aborting on the
first failure and returning that failure to the caller. -/
def setStatusGo (oldE newE : String) (rmOutcome addOutcome : Option String) :
    Except String Unit × List MarkAct :=
  match rmOutcome with
  | some e => (.error e, [.rm oldE])
  | none =>
      match addOutcome with
      | some e => (.error e, [.rm oldE, .add newE])
      | none => (.ok (), [.rm oldE, .add newE])

/-! ### Request correlator (`onEmojiAddHandler`, part_000 lines 93-147)

Reply chains as the Discord API delivers them are finite, so a message is
modelled as a finite tree node: its author id, its text, and optionally the
message it replies to.  (For the termination question C5, which asks about
malformed -- possibly cyclic -- reply graphs, a separate graph model with
explicit fuel follows below.) -/

/-- A chat message with an optional reply-parent. -/
inductive Msg where
  | orig (author : String) (text : GoStr)
  | reply (author : String) (text : GoStr) (parent : Msg)
deriving DecidableEq

/-- The author id of a message. -/
def Msg.author : Msg → String
  | .orig a _ => a
  | .reply a _ _ => a

/-- The text of a message. -/
def Msg.text : Msg → GoStr
  | .orig _ c => c
  | .reply _ c _ => c

/-- The reply-parent of a message, if any (`m.ReferencedMessage`). -/
def Msg.parentM : Msg → Option Msg
  | .orig _ _ => none
  | .reply _ _ p => some p

/-- The `"🔁"` retry emoji. -/
def retryE : String := "🔁"

/-- Result of the reply-chain walk (part_000 lines 113-137). -/
inductive WalkOut where
  /-- The loop `break`s at non-bot node `m` whose lowered text matched; the
  extracted prompt is `trimSpaceL` of the text after the prefix. -/
  | found (m : Msg) (prompt : GoStr)
  /-- The loop `return`s without finding an origin message. -/
  | abort

/-- The reply-chain walk.  At each node, lowered text in hand: a bot node
with no parent aborts; a bot node with a parent is followed; a non-bot node
succeeds exactly when its lowered text has length at least 7 and starts
with `"/dalle "` (the remainder may be empty), and aborts otherwise. -/
def walkChain (bot : String) : Msg → WalkOut
  | .orig a c =>
      if a = bot then .abort
      else
        let lc := lowerL c
        if 7 ≤ lc.length ∧ lc.take 7 = dalleL then .found (.orig a c) (trimSpaceL (lc.drop 7))
        else .abort
  | .reply a c p =>
      if a = bot then walkChain bot p
      else
        let lc := lowerL c
        if 7 ≤ lc.length ∧ lc.take 7 = dalleL then .found (.reply a c p) (trimSpaceL (lc.drop 7))
        else .abort

/-- Model of the decision of the correlator for a reaction event: `t` is the
reacted-to message, `reactor` the reacting user, `emoji` the symbol.
Returns the recovered origin message and prompt when a regenerate request
is constructed, `none` otherwise.  Guards in source order: the reacted-to
message must be bot-authored, the reactor must not be the bot, a
reply-parent must exist, the emoji must be the retry symbol; then the walk
runs from the parent, and a recovered prompt equal to `"help"` is
discarded. -/
def onEmojiAdd (bot : String) (t : Msg) (reactor emoji : String) :
    Option (Msg × GoStr) :=
  if t.author ≠ bot ∨ reactor = bot ∨ t.parentM = none then none
  else if emoji ≠ retryE then none
  else
    match t.parentM with
    | none => none
    | some par =>
        match walkChain bot par with
        | .found m p => if p = helpL then none else some (m, p)
        | .abort => none

/-! ### The walk on arbitrary (possibly cyclic) reply graphs, for C5.

Nodes are identified by naturals; `parent` is the reply-reference relation.
The loop body becomes a step function and the loop itself a fuel-indexed
runner: `none` means the fuel ran out before the loop exited, so an
execution that yields `none` for every fuel value is an infinite loop. -/

/-- A reply graph: per-node author kind, text, and optional reply-parent. -/
structure RGraph where
  isBot : Nat → Bool
  text : Nat → GoStr
  parent : Nat → Option Nat

/-- One iteration of the walk loop on a graph node. -/
inductive WStep where
  | next (j : Nat)
  | out (o : Option (Nat × GoStr))

/-- The loop body of the walk, on graph node `i`: a bot node follows its
parent (aborting when dangling), a non-bot node exits the loop with the
extracted prompt on a format match and aborts otherwise. -/
def walkStepG (G : RGraph) (i : Nat) : WStep :=
  if G.isBot i then
    match G.parent i with
    | none => .out none
    | some j => .next j
  else
    let lc := lowerL (G.text i)
    if 7 ≤ lc.length ∧ lc.take 7 = dalleL then .out (some (i, trimSpaceL (lc.drop 7)))
    else .out none

/-- The walk loop with fuel: `none` when the fuel is exhausted before the
loop reaches an outcome. -/
def walkRunG (G : RGraph) : Nat → Nat → Option (Option (Nat × GoStr))
  | 0, _ => none
  | n + 1, i =>
      match walkStepG G i with
      | .out o => some o
      | .next j => walkRunG G n j

/-- A reply graph that is a single bot-authored message referencing itself:
the smallest malformed (cyclic) reply graph. -/
def cycG : RGraph :=
  { isBot := fun _ => true, text := fun _ => [], parent := fun _ => some 0 }

/-! ### Image compositor scratch files (`base64ToImage` part_001 lines
215-245, `combineImages` lines 247-273, and the handler tail lines 142-161)

Within one request the scratch files are `ID-i.jpg` (one per fragment,
written by `base64ToImage`) and `ID.jpg` (the merged output, created by
`combineImages` and removed by a `defer` the handler registers only after
`os.Open` succeeds).  Since all names are derived from the unique request
id, they are modelled as abstract keys; the file system is a presence map
over keys.  The fallible library steps (base64 decode, `os.WriteFile`,
`gim` merge, `os.Create`, `jpeg.Encode`, `os.Open`, the Discord send) are
modelled by their outcomes, supplied as the environment. -/

/-- A scratch file of one request: `ID-i.jpg` or the merged `ID.jpg`. -/
inductive FileKey where
  | frag (i : Nat)
  | merged
deriving DecidableEq

/-- The scratch file system of one request: which keys exist. -/
def FSt := FileKey → Bool

/-- `os.WriteFile` / `os.Create`: the key now exists. -/
def addF (k : FileKey) (fs : FSt) : FSt := fun x => if x = k then true else fs x

/-- `os.Remove`: the key no longer exists (a failed removal of an absent
file is only logged by the code). -/
def rmF (k : FileKey) (fs : FSt) : FSt := fun x => if x = k then false else fs x

/-- Run a stack of deferred `os.Remove`s. -/
def runDefers : List FileKey → FSt → FSt
  | [], fs => fs
  | k :: ks, fs => runDefers ks (rmF k fs)

/-- Outcome of `os.WriteFile(name, data, 0644)` for one fragment.
`os.WriteFile` opens with `O_WRONLY|O_CREATE|O_TRUNC` and then writes, so
it has two distinct failure modes: the open itself fails and no file is
created, or the open succeeds -- the file now exists -- and the write (or
close) then fails, returning an error while leaving the file behind. -/
inductive WriteOut where
  /-- Open, write and close all succeed: the file exists, no error. -/
  | ok
  /-- Open succeeds but write or close fails: the file exists, error. -/
  | failCreated
  /-- The open fails: no file is created, error. -/
  | failNoFile
deriving DecidableEq

/-- Per-fragment outcomes: does the base64 decode succeed, and what does
`os.WriteFile` do. -/
structure FragSpec where
  decodeOk : Bool
  write : WriteOut
deriving DecidableEq

/-- Environment of one compositing run: the fragments and the outcomes of
the merge, create, encode, open and send steps. -/
structure CompEnv where
  frags : List FragSpec
  mergeOk : Bool
  createOk : Bool
  encodeOk : Bool
  openOk : Bool
  sendOk : Bool
deriving DecidableEq

/-- The fragment loop of `base64ToImage`: decode and write each fragment.
The deferred removal for a fragment file is registered only AFTER the
`os.WriteFile` error check succeeds (part_001 lines 225-234), so when the
write fails after creating the file, the loop returns with that file on
disk and no defer for it.  The first failure returns early, with the
defers registered so far pending.  Returns (success, file system, pending
defers). -/
def writeFrags : List FragSpec → Nat → FSt → Bool × FSt × List FileKey
  | [], _, fs => (true, fs, [])
  | f :: rest, i, fs =>
      if f.decodeOk then
        match f.write with
        | .ok =>
            let out := writeFrags rest (i + 1) (addF (.frag i) fs)
            (out.1, out.2.1, FileKey.frag i :: out.2.2)
        | .failCreated => (false, addF (.frag i) fs, [])
        | .failNoFile => (false, fs, [])
      else (false, fs, [])

/-- `combineImages`: merge the grid, create `ID.jpg`, encode into it.  The
merged file exists from the moment `os.Create` succeeds, even when the
encode then fails; `combineImages` itself never removes it. -/
def combineImagesM (e : CompEnv) (fs : FSt) : Bool × FSt :=
  if e.mergeOk then
    if e.createOk then
      let fs' := addF .merged fs
      if e.encodeOk then (true, fs') else (false, fs')
    else (false, fs)
  else (false, fs)

/-- `base64ToImage`: write the fragments, stitch them, and on any return
path run the deferred per-fragment removals. -/
def base64ToImageM (e : CompEnv) (fs : FSt) : Bool × FSt :=
  let w := writeFrags e.frags 0 fs
  if w.1 then
    let c := combineImagesM e w.2.1
    (c.1, runDefers w.2.2 c.2)
  else (false, runDefers w.2.2 w.2.1)

/-- The handler tail around `base64ToImage` (part_001 lines 135-161): on a
compositing error the handler returns at once; otherwise it opens `ID.jpg`
-- returning without any cleanup when the open fails -- and only then
registers the deferred `os.Remove(ID.jpg)`, which runs whether or not the
send succeeds.  Returns the final scratch file system. -/
def compositeTail (e : CompEnv) (fs : FSt) : FSt :=
  let b := base64ToImageM e fs
  if b.1 then
    if e.openOk then rmF .merged b.2
    else b.2
  else b.2

/-- The empty scratch file system (fresh request id). -/
def emptyFS : FSt := fun _ => false

/-- All fragments decode and write successfully. -/
def allFragsOk (l : List FragSpec) : Bool :=
  l.all fun f => f.decodeOk && decide (f.write = WriteOut.ok)

/-- The index of the fragment whose `os.WriteFile` failed after creating
the file, when the loop stops on such a fragment: the one fragment file
the loop can leave behind with no deferred removal registered for it. -/
def fragLeft : List FragSpec → Nat → Option Nat
  | [], _ => none
  | f :: rest, i =>
      if f.decodeOk then
        match f.write with
        | .ok => fragLeft rest (i + 1)
        | .failCreated => some i
        | .failNoFile => none
      else none

/-! ### The message handlers

Each handler is modelled as a function from the inbound message (author,
text) and an environment of step outcomes to a result tag plus the ordered
list of outward-visible effects it performs.  Informational texts are
modelled as named constants (their exact wording is immaterial to the
claims and is abbreviated here). -/

/-- An outward-visible effect of a handler. -/
inductive Effect where
  /-- `ChannelMessageSend` / `ChannelMessageSendReply` of a text. -/
  | sendText (msg : String)
  /-- `MessageReactionAdd` on the trigger message. -/
  | addMark (emoji : String)
  /-- A `setStatus`/`swapStatus` call on the trigger message
  (remove `oldE`, then add `newE`). -/
  | swapMark (oldE newE : String)
  /-- `setStatus` adding a marker on the reply message of the bot itself. -/
  | addMarkReply (emoji : String)
  /-- The generation call for this prompt (`fetchImage(s)` issued). -/
  | generate (prompt : GoStr)
  /-- `base64ToImage` invoked: the compositing stage runs. -/
  | composite
  /-- `os.Open` of the merged image. -/
  | openFile
  /-- `ChannelFileSendWithMessage` of the merged image. -/
  | sendImage (prompt : GoStr)
deriving DecidableEq

/-- How a handler run ends. -/
inductive HResult where
  | ignored
  | helped
  | annFailed
  | genFailed
  | compFailed
  | openFailed
  | sendFailed
  | done
  | crashed
deriving DecidableEq

/-- The robot marker. -/
def robotE : String := "🤖"

/-- The tools marker. -/
def toolE : String := "🛠️"

/-- The failed marker. -/
def failE : String := "❌"

/-- The succeeded marker. -/
def okE : String := "✅"

/-- The informational reply of the part_001 handler (text abbreviated). -/
def helpMsgP1 : String := "help text (dalle-mini variant)"

/-- The informational reply of the part_000 handler (text abbreviated). -/
def helpMsgP0 : String := "help text (openai variant)"

/-- The hard-coded author id admitted by the first program of main.go. -/
def soleUserID : String := "265326751801016320"

/-- Environment of the part_001 handler. -/
structure EnvP1 where
  /-- Does the initial `MessageReactionAdd("🤖")` succeed? -/
  addMarkOk : Bool
  /-- `config.DalleRetries`. -/
  retries : Nat
  /-- The endpoint schedule seen by `fetchImages`. -/
  sched : Nat → AttemptSpec
  /-- Does `base64ToImage` succeed? -/
  compositeOk : Bool
  /-- Does `os.Open(ID + ".jpg")` succeed? -/
  openOk : Bool
  /-- Does `ChannelFileSendWithMessage` succeed? -/
  sendOk : Bool

/--
Model of `onMessageHandler` of part_001 (lines 93-162): guard, help
short-circuit, 🤖 marker, retrying generation call, 🤖→🛠️ swap, composite,
open, send, with a `setStatus` swap to ❌ on each failure path and to ✅ on
success.  The `setStatus` return value is discarded by this handler, so
marker-call outcomes do not alter its control flow; a swap appears in the
trace as one `swapMark` effect.
-/
def handlerP1 (bot author : String) (content : GoStr) (e : EnvP1) :
    HResult × List Effect :=
  let c := lowerL content
  if c.length ≤ 7 ∨ c.take 7 ≠ dalleL ∨ author = bot then (.ignored, [])
  else
    let prompt := trimSpaceL (c.drop 7)
    if prompt = helpL then (.helped, [.sendText helpMsgP1])
    else if e.addMarkOk then
      let fo := fetchImagesGo prompt e.retries e.sched
      let tr0 : List Effect := [.addMark robotE, .generate prompt]
      match fo.result with
      | .crashed => (.crashed, tr0)
      | .err _ => (.genFailed, tr0 ++ [.swapMark robotE failE])
      | .ok _ =>
          let tr1 := tr0 ++ [.swapMark robotE toolE, .composite]
          if e.compositeOk then
            if e.openOk then
              if e.sendOk then
                (.done, tr1 ++ [.openFile, .sendImage prompt, .swapMark toolE okE])
              else
                (.sendFailed, tr1 ++ [.openFile, .sendImage prompt, .swapMark toolE failE])
            else (.openFailed, tr1 ++ [.openFile, .swapMark toolE failE])
          else (.compFailed, tr1 ++ [.swapMark toolE failE])
    else (.annFailed, [.addMark robotE])

/-- Environment of the handler of the first program of main.go. -/
structure EnvV1 where
  /-- `config.DalleRetries`. -/
  retries : Nat
  /-- The endpoint schedule seen by `fetchImages`. -/
  sched : Nat → AttemptSpec
  /-- Does `base64ToImage` succeed?  (Failure is only logged.) -/
  compositeOk : Bool
  /-- Does `os.Open` succeed?  (Failure is only logged.) -/
  openOk : Bool
  /-- Does `ChannelFileSendWithMessage` succeed? -/
  sendOk : Bool

/--
Model of `onMessageHandler` of the first program of main.go (lines
96-142): only the hard-coded user id is admitted, there is no help
short-circuit and there are no status markers at all (markers are a TODO
comment).  A `fetchImages` error is logged but the handler does NOT
return: it continues into `base64ToImage` (with a nil fragment slice),
`os.Open` and the send; compositing and open failures are likewise only
logged.
-/
def handlerV1 (bot author : String) (content : GoStr) (e : EnvV1) :
    HResult × List Effect :=
  let c := lowerL content
  if c.length ≤ 7 ∨ c.take 7 ≠ dalleL ∨ author = bot ∨ author ≠ soleUserID then
    (.ignored, [])
  else
    let prompt := trimSpaceL (c.drop 7)
    let fo := fetchImagesGo prompt e.retries e.sched
    match fo.result with
    | .crashed => (.crashed, [.generate prompt])
    | _ =>
        let tr : List Effect := [.generate prompt, .composite, .openFile, .sendImage prompt]
        if e.sendOk then (.done, tr) else (.sendFailed, tr)

/-- Environment of the part_000 message handler. -/
structure EnvP0 where
  /-- Does the initial `MessageReactionAdd("🤖")` succeed? -/
  addMarkOk : Bool
  /-- Does the special-user `ChannelMessageSendReply` succeed? -/
  specialSendOk : Bool
  /-- The single `client.Do` outcome seen by `fetchImage`. -/
  single : SingleDo
  /-- Does the `ChannelMessageSendReply` of the image URL succeed? -/
  sendOk : Bool

/--
Model of `onMessageHandler` of part_000 (lines 175-235): guard, help
short-circuit, 🤖 marker, optional special-user reply, single-shot
generation call, URL reply, 🤖→✅ swap plus a 🔁 marker on the reply on
success, 🤖→❌ swap on failure paths.  `swapStatus`/`setStatus` return
values are discarded by this handler.
-/
def handlerP0 (bot author : String) (content : GoStr)
    (specialUser specialReply : String) (e : EnvP0) : HResult × List Effect :=
  let c := lowerL content
  if c.length ≤ 7 ∨ c.take 7 ≠ dalleL ∨ author = bot then (.ignored, [])
  else
    let prompt := trimSpaceL (c.drop 7)
    if prompt = helpL then (.helped, [.sendText helpMsgP0])
    else if e.addMarkOk then
      let tr0 : List Effect := [.addMark robotE]
      if specialUser ≠ "" ∧ specialUser = author then
        let tr1 := tr0 ++ [.sendText specialReply]
        if e.specialSendOk then
          match fetchImageGo e.single with
          | .crashed => (.crashed, tr1 ++ [.generate prompt])
          | .err _ => (.genFailed, tr1 ++ [.generate prompt, .swapMark robotE failE])
          | .ok url =>
              if e.sendOk then
                (.done, tr1 ++ [.generate prompt, .sendText url, .swapMark robotE okE,
                  .addMarkReply retryE])
              else
                (.sendFailed, tr1 ++ [.generate prompt, .sendText url,
                  .swapMark robotE failE])
        else (.sendFailed, tr1 ++ [.swapMark robotE failE])
      else
        match fetchImageGo e.single with
        | .crashed => (.crashed, tr0 ++ [.generate prompt])
        | .err _ => (.genFailed, tr0 ++ [.generate prompt, .swapMark robotE failE])
        | .ok url =>
            if e.sendOk then
              (.done, tr0 ++ [.generate prompt, .sendText url, .swapMark robotE okE,
                .addMarkReply retryE])
            else
              (.sendFailed, tr0 ++ [.generate prompt, .sendText url,
                .swapMark robotE failE])
    else (.annFailed, [.addMark robotE])

/-! ### Concrete scenarios used by the counterexamples and witnesses -/

/-- A schedule whose first attempt is a transport-level failure. -/
def schedTransport : Nat → AttemptSpec :=
  fun _ => { outcome := .transportErr "connection refused", elapsed := 0 }

/-- A schedule: one 503 attempt taking 2 time units (then more 503s). -/
def schedFail1 : Nat → AttemptSpec :=
  fun _ => { outcome := .response 503 (.malformed "m"), elapsed := 2 }

/-- A schedule: every attempt is a 503 taking 1 time unit. -/
def schedFail2 : Nat → AttemptSpec :=
  fun _ => { outcome := .response 503 (.malformed "m"), elapsed := 1 }

/-- A schedule: a 503 taking 1 unit, then a 200 with one image payload. -/
def schedOk2 : Nat → AttemptSpec :=
  fun j =>
    if j = 0 then { outcome := .response 503 (.malformed "m"), elapsed := 1 }
    else { outcome := .response 200 (.images ["cGF5bG9hZA==".toList]), elapsed := 4 }

/-- part_001-handler environment for the C9 witness: marker add succeeds,
one attempt which fails with a 503. -/
def envP1Fail : EnvP1 :=
  { addMarkOk := true, retries := 1, sched := schedFail1,
    compositeOk := true, openOk := true, sendOk := true }

/-- main.go-v1 environment: one failing attempt, send fails too. -/
def envV1Fail : EnvV1 :=
  { retries := 1, sched := schedFail1, compositeOk := false, openOk := false,
    sendOk := false }

/-- Compositing environment with four good fragments whose encode step
fails (for example the disk fills while `jpeg.Encode` writes). -/
def envEncodeFail : CompEnv :=
  { frags := [⟨true, .ok⟩, ⟨true, .ok⟩, ⟨true, .ok⟩, ⟨true, .ok⟩],
    mergeOk := true, createOk := true, encodeOk := false, openOk := true,
    sendOk := true }

/-- part_000-handler environment where every external step succeeds. -/
def envP0W : EnvP0 :=
  { addMarkOk := true, specialSendOk := true,
    single := .response 200 (.parsed [[("url", "http://img")]]), sendOk := true }

/-- A user-authored origin message `"/dalle two cats"`. -/
def origUserMsg : Msg := .orig "alice" ("/dalle two cats".toList)

/-- A user-authored (not bot-authored) reacted-to message replying to the
origin message. -/
def userTarget : Msg := .reply "alice" ("look at this".toList) origUserMsg

/-- A bot-authored reacted-to message atop two bot hops down to the origin:
origin(user) <- ack(bot) <- target(bot). -/
def botTarget : Msg :=
  .reply "BOT" ("img2".toList) (.reply "BOT" ("img1".toList) origUserMsg)

/-- A well-formed linear reply graph: node 0 is the user origin
`"/dalle two cats"`, every node `k+1` is a bot message replying to `k`. -/
def linG : RGraph :=
  { isBot := fun n => n != 0
  , text := fun n => if n = 0 then "/dalle two cats".toList else []
  , parent := fun n => match n with | 0 => none | k + 1 => some k }

/-! ## Theorems -/

/-!
### C1: casing of the stored prompt

The claim says the stored prompt preserves the original casing, with case
normalization applied only to command-prefix detection.  In the code every
handler lowercases the whole message first and slices the prompt out of the
lowered text, so the stored prompt is the lowercased remainder.
-/

/--
C1, counterexample: for the message `"/dalle Hello"` from a non-bot author
the trigger parser stores the prompt `"hello"`, not `trim("Hello") =
"Hello"` as the claim states: the original casing of the prompt is NOT
preserved.
-/
theorem trigger_prompt_casing_cex :
    parsePromptGo "BOT" "alice" ("/dalle Hello".toList) = some ("hello".toList) ∧
      parsePromptGo "BOT" "alice" ("/dalle Hello".toList) ≠
        some (trimSpaceL ("Hello".toList)) := by
  constructor
  · rfl
  · decide

/--
C1, amended: for every inbound message whose text is a case-variant of the
command prefix followed by a non-empty remainder `P`, from an author other
than the bot, the stored prompt equals `trim(toLower(P))`: case
normalization is applied to the whole message, including the stored
prompt, not only to prefix detection.
-/
theorem trigger_prompt_amended (bot author : String) (pre p : GoStr)
    (hpre : lowerL pre = dalleL) (hp : p ≠ []) (hauthor : author ≠ bot) :
    parsePromptGo bot author (pre ++ p) = some (trimSpaceL (lowerL p)) := by
  have hlc : lowerL (pre ++ p) = dalleL ++ lowerL p := by
    rw [show lowerL (pre ++ p) = lowerL pre ++ lowerL p from
      List.map_append _ _ _, hpre]
  have hlen : dalleL.length = 7 := by decide
  have hplen : 0 < p.length := List.length_pos.mpr hp
  have htake : (dalleL ++ lowerL p).take 7 = dalleL := by
    rw [← hlen]; exact List.take_left dalleL (lowerL p)
  have hdrop : (dalleL ++ lowerL p).drop 7 = lowerL p := by
    rw [← hlen]; exact List.drop_left dalleL (lowerL p)
  have hlength : 7 < (dalleL ++ lowerL p).length := by
    simp only [List.length_append, hlen, lowerL, List.length_map]
    omega
  simp only [parsePromptGo, hlc]
  rw [if_neg, hdrop]
  rintro (h | h | h)
  · exact absurd h (by omega)
  · exact h htake
  · exact hauthor h

/-- C1 witness: `"/DaLLe  Cats "` from user `"u"` parses to prompt
`"cats"`. -/
theorem trigger_prompt_amended_witness :
    parsePromptGo "BOT" "u" ("/DaLLe ".toList ++ " Cats ".toList) =
      some ("cats".toList) :=
  (trigger_prompt_amended "BOT" "u" ("/DaLLe ".toList) (" Cats ".toList)
    (by decide) (by decide) (by decide)).trans (by decide)

/-!
### C2: the retry loop

Helper lemmas characterize the loop on all-failing windows and on the
first success; the claim theorem instantiates them from attempt 0.
-/

/-- If the next `n` attempts from index `i` all complete with non-success
statuses, the loop exhausts them and returns the descriptive failure whose
message interpolates only the elapsed duration. -/
theorem fetchLoop_exhaust (sched : Nat → AttemptSpec) :
    ∀ n i acc, (∀ j, j < n → isNon200 (sched (i + j))) →
      fetchLoop sched n i acc =
        { result := .err (exhaustMsg (acc + totElapsed sched i n)),
          duration := some (acc + totElapsed sched i n),
          attempts := i + n, log := [] } := by
  intro n
  induction n with
  | zero => intro i acc _; simp [fetchLoop, totElapsed]
  | succ m ih =>
      intro i acc h
      obtain ⟨st, b, ho, hst⟩ := h 0 (by omega)
      rw [show i + 0 = i from rfl] at ho
      have hshift : ∀ j, j < m → isNon200 (sched (i + 1 + j)) := by
        intro j hj
        have := h (j + 1) (by omega)
        rwa [show i + (j + 1) = i + 1 + j by omega] at this
      have harith : acc + (sched i).elapsed + totElapsed sched (i + 1) m =
          acc + totElapsed sched i (m + 1) := by
        simp [totElapsed]; omega
      simp only [fetchLoop, ho, if_neg hst]
      rw [ih (i + 1) (acc + (sched i).elapsed) hshift, harith,
        show i + 1 + m = i + (m + 1) from by omega]

/-- One iteration of the loop on a completed non-success attempt: move to
the next attempt, accumulating the elapsed time. -/
theorem fetchLoop_step (sched : Nat → AttemptSpec) (remaining i acc st : Nat)
    (b : RespBody) (ho : (sched i).outcome = .response st b) (hst : st ≠ 200) :
    fetchLoop sched (remaining + 1) i acc =
      fetchLoop sched remaining (i + 1) (acc + (sched i).elapsed) := by
  simp only [fetchLoop, ho, if_neg hst]

/-- If the `m` attempts from index `i` all complete with non-success
statuses and attempt `i + m` completes with status 200 and a body holding
`imgs`, the loop (with any spare budget `s`) returns the images, having
made `i + m + 1` attempts, its duration and success log line covering the
attempts actually made. -/
theorem fetchLoop_success (sched : Nat → AttemptSpec) (imgs : List GoStr) :
    ∀ m s i acc, (∀ j, j < m → isNon200 (sched (i + j))) →
      (sched (i + m)).outcome = .response 200 (.images imgs) →
      fetchLoop sched (m + s + 1) i acc =
        { result := .ok imgs,
          duration := some (acc + totElapsed sched i (m + 1)),
          attempts := i + m + 1,
          log := [successMsg (i + m + 1) (acc + totElapsed sched i (m + 1))] } := by
  intro m
  induction m with
  | zero =>
      intro s i acc _ h200
      rw [show i + 0 = i from rfl] at h200
      simp [fetchLoop, h200, totElapsed]
  | succ m ih =>
      intro s i acc h h200
      obtain ⟨st, b, ho, hst⟩ := h 0 (by omega)
      rw [show i + 0 = i from rfl] at ho
      have hshift : ∀ j, j < m → isNon200 (sched (i + 1 + j)) := by
        intro j hj
        have := h (j + 1) (by omega)
        rwa [show i + (j + 1) = i + 1 + j by omega] at this
      have h200s : (sched (i + 1 + m)).outcome = .response 200 (.images imgs) := by
        rwa [show i + (m + 1) = i + 1 + m by omega] at h200
      have harith : acc + (sched i).elapsed + totElapsed sched (i + 1) (m + 1) =
          acc + totElapsed sched i (m + 1 + 1) := by
        simp [totElapsed]; omega
      have hfuel : m + 1 + s + 1 = (m + s + 1) + 1 := by omega
      rw [hfuel, fetchLoop_step sched (m + s + 1) i acc st b ho hst,
        ih s (i + 1) (acc + (sched i).elapsed) hshift h200s, harith,
        show i + 1 + m + 1 = i + (m + 1) + 1 from by omega]

/--
C2, amended.  Success half (as claimed): if the first `k - 1` attempts
complete with non-success statuses and attempt `k` (within the budget)
returns 200 with a well-formed body, the client returns the decoded images
after exactly `k` attempts, records the elapsed duration, and reports the
attempt count `k` in its success log line.  Exhaustion half (amended): if
all `retries` attempts complete with non-success statuses, the client makes
exactly `retries` attempts and returns a failure carrying the elapsed
duration -- but, contrary to the claim, the failure does not carry the
number of attempts made (see the counterexample): the error message
interpolates only the duration.
-/
theorem retry_loop_amended :
    (∀ (prompt : GoStr) (sched : Nat → AttemptSpec) (retries k : Nat)
        (imgs : List GoStr),
        0 < k → k ≤ retries →
        (∀ j, j < k - 1 → isNon200 (sched j)) →
        (sched (k - 1)).outcome = .response 200 (.images imgs) →
        (fetchImagesGo prompt retries sched).result = .ok imgs ∧
          (fetchImagesGo prompt retries sched).attempts = k ∧
          (fetchImagesGo prompt retries sched).duration =
            some (totElapsed sched 0 k) ∧
          successMsg k (totElapsed sched 0 k) ∈
            (fetchImagesGo prompt retries sched).log) ∧
    (∀ (prompt : GoStr) (sched : Nat → AttemptSpec) (retries : Nat),
        (∀ j, j < retries → isNon200 (sched j)) →
        (fetchImagesGo prompt retries sched).result =
            .err (exhaustMsg (totElapsed sched 0 retries)) ∧
          (fetchImagesGo prompt retries sched).attempts = retries ∧
          (fetchImagesGo prompt retries sched).duration =
            some (totElapsed sched 0 retries)) := by
  constructor
  · intro prompt sched retries k imgs hk hkr hfail h200
    have hm : (sched (0 + (k - 1))).outcome = .response 200 (.images imgs) := by
      rwa [show 0 + (k - 1) = k - 1 from by omega]
    have hfail0 : ∀ j, j < k - 1 → isNon200 (sched (0 + j)) := by
      intro j hj
      rw [show 0 + j = j from by omega]
      exact hfail j hj
    have hfuel : retries = (k - 1) + (retries - k) + 1 := by omega
    have := fetchLoop_success sched imgs (k - 1) (retries - k) 0 0 hfail0 hm
    have hres : fetchLoop sched retries 0 0 =
        { result := .ok imgs,
          duration := some (0 + totElapsed sched 0 ((k - 1) + 1)),
          attempts := 0 + (k - 1) + 1,
          log := [successMsg (0 + (k - 1) + 1)
            (0 + totElapsed sched 0 ((k - 1) + 1))] } := by
      rw [hfuel]; exact this
    rw [show (k - 1) + 1 = k from by omega] at hres
    rw [show 0 + (k - 1) + 1 = k from by omega] at hres
    rw [show 0 + totElapsed sched 0 k = totElapsed sched 0 k from by omega] at hres
    simp [fetchImagesGo, hres]
  · intro prompt sched retries hfail
    have hfail0 : ∀ j, j < retries → isNon200 (sched (0 + j)) := by
      intro j hj
      rw [show 0 + j = j from by omega]
      exact hfail j hj
    have hres := fetchLoop_exhaust sched retries 0 0 hfail0
    rw [show 0 + totElapsed sched 0 retries = totElapsed sched 0 retries from
      by omega] at hres
    rw [show 0 + retries = retries from by omega] at hres
    simp [fetchImagesGo, hres]

/--
C2, counterexample to the exhaustion half as stated: two runs with
different configured maxima (1 versus 2 attempts, all failing) return
identical failures -- the same error value and the same recorded duration
-- although the numbers of attempts made differ, so the returned failure
cannot carry the number of attempts made.  (The attempt count appears
neither in the error message, which interpolates only the duration, nor
anywhere else the caller can see.)
-/
theorem retry_failure_attempts_cex :
    (fetchImagesGo [] 1 schedFail1).result = (fetchImagesGo [] 2 schedFail2).result ∧
      (fetchImagesGo [] 1 schedFail1).duration =
        (fetchImagesGo [] 2 schedFail2).duration ∧
      (fetchImagesGo [] 1 schedFail1).attempts = 1 ∧
      (fetchImagesGo [] 2 schedFail2).attempts = 2 :=
  ⟨rfl, rfl, rfl, rfl⟩

/-- C2 witness: a 503 then a 200 with one payload yields the payload after
2 attempts; two 503s against a budget of 2 yield the exhaustion failure
after 2 attempts. -/
theorem retry_loop_amended_witness :
    (fetchImagesGo [] 2 schedOk2).result = .ok ["cGF5bG9hZA==".toList] ∧
      (fetchImagesGo [] 2 schedOk2).attempts = 2 ∧
      (fetchImagesGo [] 2 schedFail2).result = .err (exhaustMsg 2) ∧
      (fetchImagesGo [] 2 schedFail2).attempts = 2 := by
  have hs := retry_loop_amended.1 [] schedOk2 2 2 ["cGF5bG9hZA==".toList]
    (by omega) (by omega)
    (fun j hj => by
      have hj0 : j = 0 := by omega
      subst hj0
      exact ⟨503, .malformed "m", rfl, by omega⟩)
    rfl
  have he := retry_loop_amended.2 [] schedFail2 2
    (fun j _ => ⟨503, .malformed "m", rfl, by omega⟩)
  exact ⟨hs.1, hs.2.1, he.1, he.2.1⟩

/-!
### C3: transport-level error in the retry loop

The claim (and the spec) say a transport error on any attempt aborts
immediately, returning a failure with attempt count 1.  The code indeed
never retries, but it does not return the failure: on the error path it
first runs `resp.Body.Close()` on the response, which `client.Do` returns
as nil when the call itself fails, so the goroutine panics with a
nil-pointer dereference before reaching its `return nil, err`.
-/

/--
C3, evaluation at the failing input: with a transport-level failure on
attempt 1 and a configured maximum of 5 attempts, `fetchImages` makes
exactly one attempt and panics (nil-pointer dereference on
`resp.Body.Close()`); no failure value is returned and `imgReq.Duration`
is never written.
-/
theorem retry_transport_nil_close :
    (fetchImagesGo [] 5 schedTransport).result = FetchResult.crashed ∧
      (fetchImagesGo [] 5 schedTransport).attempts = 1 ∧
      (fetchImagesGo [] 5 schedTransport).duration = none :=
  ⟨rfl, rfl, rfl⟩

/-!
### C10: malformed single-shot response body

The claim says every malformed body yields a returned GenerationFailure
and never aborts the process.  A body that fails to unmarshal is indeed
returned as an error, but a body that parses to an empty `data` array
panics: the code evaluates `r.Data[0]["url"]` with no emptiness check.
-/

/--
C10, evaluation at the failing input: for the well-formed-JSON body whose
`data` array is empty (`{"created":0,"data":[]}`), the single-shot
`fetchImage` panics with an index-out-of-range instead of returning an
error; a body that fails to unmarshal is, by contrast, returned as an
error result.
-/
theorem single_shot_empty_data_crashes :
    fetchImageGo (.response 200 (.parsed [])) = SingleResult.crashed ∧
      fetchImageGo (.response 200 (.malformed "invalid character")) =
        SingleResult.err "invalid character" :=
  ⟨rfl, rfl⟩

/-!
### C4: the reaction correlator

The claim lists three rejection conditions and says that "otherwise" the
walk runs, succeeding at the first non-bot node exactly when its text
matches the command grammar (prefix + non-empty remainder).  The code has
a fourth rejection condition (the reacted-to message must be authored by
the bot), accepts an empty remainder in the grammar check of the walk, and
discards a recovered prompt equal to "help".
-/

/--
C4, counterexample: a 🔁 reaction by a non-bot user on a USER-authored
message whose direct reply-parent is a user message matching the command
grammar with a non-empty, non-help remainder.  All three rejection conditions of the claim are avoided and the walk, had it run, would have
succeeded at its first node -- yet the code constructs no request, because
its first guard also requires the reacted-to message to be bot-authored.
-/
theorem correlator_target_author_cex :
    onEmojiAdd "BOT" userTarget "carol" retryE = none ∧
      userTarget.author ≠ "BOT" ∧
      "carol" ≠ "BOT" ∧
      userTarget.parentM = some origUserMsg ∧
      walkChain "BOT" origUserMsg = .found origUserMsg ("two cats".toList) ∧
      "two cats".toList ≠ helpL :=
  ⟨rfl, by decide, by decide, rfl, rfl, by decide⟩

/--
C4, amended: the correlator constructs a request exactly when the
reacted-to message is bot-authored, the reactor is not the bot, the emoji
is the retry symbol, the reply-parent exists and the walk from it finds an
origin, and the recovered prompt is not "help"; the walk follows
bot-authored nodes to their parents, aborts on a dangling bot node, and at
the first non-bot node succeeds exactly when the lowered text is at least
7 characters long and starts with the command prefix -- the remainder may
be empty.
-/
theorem correlator_amended :
    (∀ (bot reactor emoji : String) (t m : Msg) (p : GoStr),
        onEmojiAdd bot t reactor emoji = some (m, p) ↔
          t.author = bot ∧ reactor ≠ bot ∧ emoji = retryE ∧
            (∃ par, t.parentM = some par ∧ walkChain bot par = .found m p) ∧
            p ≠ helpL) ∧
      (∀ (bot : String) (c : GoStr), walkChain bot (.orig bot c) = .abort) ∧
      (∀ (bot : String) (c : GoStr) (par : Msg),
        walkChain bot (.reply bot c par) = walkChain bot par) ∧
      (∀ (bot : String) (t : Msg), t.author ≠ bot →
        walkChain bot t =
          if 7 ≤ (lowerL t.text).length ∧ (lowerL t.text).take 7 = dalleL then
            .found t (trimSpaceL ((lowerL t.text).drop 7))
          else .abort) := by
  refine ⟨?_, ?_, ?_, ?_⟩
  · intro bot reactor emoji t m p
    unfold onEmojiAdd
    constructor
    · intro h
      by_cases h1 : t.author ≠ bot ∨ reactor = bot ∨ t.parentM = none
      · rw [if_pos h1] at h; cases h
      · rw [if_neg h1] at h
        push_neg at h1
        obtain ⟨ha, hr, hpne⟩ := h1
        by_cases he : emoji ≠ retryE
        · rw [if_pos he] at h; cases h
        · rw [if_neg he] at h
          push_neg at he
          cases hp : t.parentM with
          | none => exact absurd hp hpne
          | some par =>
              rw [hp] at h
              cases hw : walkChain bot par with
              | abort => simp only [hw] at h; cases h
              | found m2 p2 =>
                  simp only [hw] at h
                  by_cases hhelp : p2 = helpL
                  · rw [if_pos hhelp] at h; cases h
                  · rw [if_neg hhelp] at h
                    simp only [Option.some.injEq, Prod.mk.injEq] at h
                    obtain ⟨hm, hp2⟩ := h
                    subst hm; subst hp2
                    exact ⟨ha, hr, he, ⟨par, rfl, hw⟩, hhelp⟩
    · rintro ⟨ha, hr, he, ⟨par, hpar, hw⟩, hnh⟩
      have h1 : ¬(t.author ≠ bot ∨ reactor = bot ∨ t.parentM = none) := by
        push_neg
        exact ⟨ha, hr, by rw [hpar]; simp⟩
      rw [if_neg h1, if_neg (not_not_intro he), hpar]
      simp [hw, hnh]
  · intro bot c; simp [walkChain]
  · intro bot c par; simp [walkChain]
  · intro bot t h
    cases t with
    | orig a c => simp only [Msg.author] at h; simp [walkChain, h, Msg.text]
    | reply a c par => simp only [Msg.author] at h; simp [walkChain, h, Msg.text]

/--
C4 witness: a 🔁 reaction by a user on a bot message whose reply chain
runs through one more bot message down to the user origin
`"/dalle two cats"` recovers that origin and its prompt.
-/
theorem correlator_amended_witness :
    onEmojiAdd "BOT" botTarget "carol" retryE =
      some (origUserMsg, "two cats".toList) :=
  (correlator_amended.1 "BOT" "carol" retryE botTarget origUserMsg
    ("two cats".toList)).mpr
    ⟨rfl, by decide, rfl,
      ⟨Msg.reply "BOT" ("img1".toList) origUserMsg, rfl, rfl⟩, by decide⟩

/-!
### C5: termination of the reply-chain walk

The claim asserts termination on every reply graph, including cyclic ones.
The loop has no hop bound: on the self-referencing bot message it never
reaches an outcome, while on every graph admitting a decreasing measure
along reply links (in particular every finite acyclic chain) it does.
-/

/-- On the cyclic graph the walk consumes any amount of fuel without
reaching an outcome. -/
theorem walkRunG_cyc_none : ∀ n, walkRunG cycG n 0 = none := by
  intro n
  induction n with
  | zero => rfl
  | succ m ih => exact ih

/--
C5, counterexample: on the reply graph consisting of one bot-authored
message that is its own reply-parent, no number of loop iterations reaches
a success or abort outcome: the walk loops forever.
-/
theorem walk_cyclic_cex : ¬ ∃ n o, walkRunG cycG n 0 = some o := by
  rintro ⟨n, o, h⟩
  rw [walkRunG_cyc_none n] at h
  cases h

/-- Running the walk with more fuel preserves a reached outcome. -/
theorem walkRunG_mono (G : RGraph) :
    ∀ n m i o, n ≤ m → walkRunG G n i = some o → walkRunG G m i = some o := by
  intro n
  induction n with
  | zero => intro m i o _ h; cases h
  | succ k ih =>
      intro m i o hle h
      cases m with
      | zero => exact absurd hle (by omega)
      | succ m2 =>
          cases hs : walkStepG G i with
          | out o2 =>
              rw [show walkRunG G (k + 1) i = some o2 from by
                simp [walkRunG, hs]] at h
              simp [walkRunG, hs, h]
          | next j =>
              rw [show walkRunG G (k + 1) i = walkRunG G k j from by
                simp [walkRunG, hs]] at h
              rw [show walkRunG G (m2 + 1) i = walkRunG G m2 j from by
                simp [walkRunG, hs]]
              exact ih m2 j o (by omega) h

/--
C5, amended: on every reply graph admitting a measure that decreases along
each `continue` hop of the loop (equivalently, on every graph whose reply
chains are well-founded, which covers all finite acyclic chains of any
length), the walk reaches an outcome: fuel `d i + 1` suffices from node
`i`.  On a cyclic graph it loops forever (see the counterexample).
-/
theorem walk_terminates_amended (G : RGraph) (d : Nat → Nat)
    (hd : ∀ a b, walkStepG G a = .next b → d b < d a) :
    ∀ i, ∃ o, walkRunG G (d i + 1) i = some o := by
  have main : ∀ n i, d i ≤ n → ∃ o, walkRunG G (d i + 1) i = some o := by
    intro n
    induction n with
    | zero =>
        intro i hi
        cases hs : walkStepG G i with
        | out o => exact ⟨o, by simp [walkRunG, hs]⟩
        | next j => exact absurd (hd i j hs) (by omega)
    | succ k ih =>
        intro i hi
        cases hs : walkStepG G i with
        | out o => exact ⟨o, by simp [walkRunG, hs]⟩
        | next j =>
            have hj : d j < d i := hd i j hs
            obtain ⟨o, ho⟩ := ih j (by omega)
            refine ⟨o, ?_⟩
            rw [show walkRunG G (d i + 1) i = walkRunG G (d i) j from by
              simp [walkRunG, hs]]
            exact walkRunG_mono G (d j + 1) (d i) j o (by omega) ho
  intro i
  exact main (d i) i le_rfl

/-- C5 witness: on the three-node linear chain bot <- bot <- user-origin,
fuel 3 reaches an outcome from the top. -/
theorem walk_terminates_amended_witness : ∃ o, walkRunG linG 3 2 = some o := by
  have hd : ∀ a b, walkStepG linG a = .next b → b < a := by
    intro a b h
    cases a with
    | zero =>
        have h0 : walkStepG linG 0 = .out (some (0, "two cats".toList)) := rfl
        rw [h0] at h
        cases h
    | succ k =>
        have hk : walkStepG linG (k + 1) = .next k := rfl
        rw [hk] at h
        cases h
        omega
  exact walk_terminates_amended linG id hd 2

/-!
### C8: the two-step marker swap
-/

/--
C8: the marker swap is the two-step sequence remove-then-add; the failure
of either step is returned to the caller (the remove error when removal
fails, in which case the add is never attempted; the add error when
removal succeeded and addition fails), it is never swallowed and never
retried -- the returned trace shows each Discord call attempted at most
once -- and the swap succeeds exactly when both steps do.
-/
theorem marker_swap_reports_failures (oldE newE : String)
    (ro ao : Option String) :
    ((setStatusGo oldE newE ro ao).1 = .ok () ↔ ro = none ∧ ao = none) ∧
      (∀ e, ro = some e →
        setStatusGo oldE newE ro ao = (.error e, [.rm oldE])) ∧
      (∀ e, ro = none → ao = some e →
        setStatusGo oldE newE ro ao = (.error e, [.rm oldE, .add newE])) ∧
      (ro = none → ao = none →
        setStatusGo oldE newE ro ao = (.ok (), [.rm oldE, .add newE])) := by
  cases ro <;> cases ao <;> simp [setStatusGo]

/-- C8 witness: removing a marker that is not present (the API answers
404) is reported to the caller as that error, with the add never
attempted. -/
theorem marker_swap_reports_failures_witness :
    setStatusGo "🤖" "❌" (some "HTTP 404 Unknown Reaction") none =
      (.error "HTTP 404 Unknown Reaction", [.rm "🤖"]) :=
  (marker_swap_reports_failures "🤖" "❌" (some "HTTP 404 Unknown Reaction")
    none).2.1 "HTTP 404 Unknown Reaction" rfl

/-!
### C6: the help short-circuit

Three of the four evolutions short-circuit an accepted trigger whose
trimmed prompt is "help" (the comparison runs on the already-lowered
content, so it is case-insensitive) to the informational reply, before any
marker is touched and before any generation call.  The earliest evolution
(first program of main.go) has no help short-circuit at all: it issues a
generation call for the prompt "help".
-/

/--
C6, counterexample: in the earliest evolution, the accepted trigger
`"/dalle help"` from the admitted user leads to a generation call for the
prompt "help" (and to the compositing and send stages), with no
informational reply and no markers -- the statement of the claim that no generation call is
issued fails for this handler.
-/
theorem help_v1_generates_cex :
    handlerV1 "BOT" soleUserID ("/dalle help".toList) envV1Fail =
      (.sendFailed, [.generate helpL, .composite, .openFile, .sendImage helpL]) ∧
      Effect.generate helpL ∈
        (handlerV1 "BOT" soleUserID ("/dalle help".toList) envV1Fail).2 :=
  ⟨rfl, by decide⟩

/--
C6, amended: in the evolutions that implement the help short-circuit
(part_000, part_001 and the second program of main.go -- the part_000
handler is modelled here; the other two differ only after this branch), every
accepted trigger whose trimmed prompt equals "help" (case-insensitively,
since the prompt is sliced from the lowered content) produces exactly the
informational reply: no generation call, no marker added, removed or
swapped.
-/
theorem help_short_circuit_amended (bot author : String) (content : GoStr)
    (specialUser specialReply : String) (e : EnvP0)
    (hlen : 7 < content.length)
    (hpre : (lowerL content).take 7 = dalleL)
    (hauthor : author ≠ bot)
    (hhelp : trimSpaceL ((lowerL content).drop 7) = helpL) :
    handlerP0 bot author content specialUser specialReply e =
      (.helped, [.sendText helpMsgP0]) := by
  have hl : ¬ (lowerL content).length ≤ 7 := by
    simp only [lowerL, List.length_map]; omega
  simp only [handlerP0]
  rw [if_neg (by rintro (h | h | h); exacts [hl h, h hpre, hauthor h]),
    if_pos hhelp]

/-- C6 witness: `"/dalle HeLp"` from a user produces exactly the
informational reply. -/
theorem help_short_circuit_amended_witness :
    handlerP0 "BOT" "u" ("/dalle HeLp".toList) "" "" envP0W =
      (.helped, [.sendText helpMsgP0]) :=
  help_short_circuit_amended "BOT" "u" ("/dalle HeLp".toList) "" "" envP0W
    (by decide) (by decide) (by decide) (by decide)

/-!
### C7: scratch-file cleanup

A per-fragment file gets its deferred removal registered only after its
`os.WriteFile` returns without error: a write that fails after creating
the file (`O_CREATE|O_TRUNC` open succeeded, write failed) leaves that one
fragment file behind with no defer for it; fragment files whose writes
succeeded are removed on every exit path.  The merged output `ID.jpg` is
created inside `combineImages` while its removal is deferred only in the
handler, and only after `os.Open` succeeds: when `jpeg.Encode` fails after
`os.Create`, or when the subsequent `os.Open` fails, the handler returns
with the merged file still on disk.
-/

/-- Running a stack of deferred removals clears exactly the deferred keys. -/
theorem runDefers_eval :
    ∀ (ds : List FileKey) (fs : FSt) (k : FileKey),
      runDefers ds fs k = if k ∈ ds then false else fs k := by
  intro ds
  induction ds with
  | nil => intro fs k; simp [runDefers]
  | cons d ds ih =>
      intro fs k
      rw [runDefers, ih]
      by_cases hk : k = d
      · subst hk; simp [rmF]
      · by_cases hm : k ∈ ds <;> simp [rmF, hk, hm]

/-- If every fragment decodes and writes cleanly, the loop stops on no
created-then-failed write. -/
theorem fragLeft_none_of_allOk :
    ∀ (l : List FragSpec), allFragsOk l = true → ∀ i, fragLeft l i = none := by
  intro l
  induction l with
  | nil => intro _ i; rfl
  | cons f rest ih =>
      intro h i
      simp only [allFragsOk, List.all_cons, Bool.and_eq_true] at h
      obtain ⟨⟨hd, hw⟩, hrest⟩ := h
      have hwo : f.write = WriteOut.ok := of_decide_eq_true hw
      simp only [fragLeft, hd, hwo, if_true]
      exact ih hrest (i + 1)

/-- The fragment loop: it succeeds exactly when every fragment decodes and
writes cleanly; its pending defers are exactly the fragment files whose
writes succeeded (all with index at least the starting index); the index
of a created-then-failed write, when the loop stops on one, carries no
defer; and a file exists afterwards exactly when its write succeeded, or
it is the created-then-failed file, or it already existed. -/
theorem writeFrags_spec :
    ∀ (l : List FragSpec) (i : Nat) (fs : FSt),
      (writeFrags l i fs).1 = allFragsOk l ∧
        (∀ k, k ∈ (writeFrags l i fs).2.2 → ∃ j, i ≤ j ∧ k = FileKey.frag j) ∧
        (∀ j, fragLeft l i = some j →
          i ≤ j ∧ FileKey.frag j ∉ (writeFrags l i fs).2.2) ∧
        (∀ k, (writeFrags l i fs).2.1 k = true ↔
          k ∈ (writeFrags l i fs).2.2 ∨
            (∃ j, fragLeft l i = some j ∧ k = FileKey.frag j) ∨ fs k = true) := by
  intro l
  induction l with
  | nil => intro i fs; simp [writeFrags, allFragsOk, fragLeft]
  | cons f rest ih =>
      intro i fs
      cases hd : f.decodeOk with
      | false =>
          refine ⟨?_, ?_, ?_, ?_⟩
          · simp [writeFrags, hd, allFragsOk]
          · intro k hk; simp [writeFrags, hd] at hk
          · intro j hj; simp [fragLeft, hd] at hj
          · intro k; simp [writeFrags, fragLeft, hd]
      | true =>
          cases hw : f.write with
          | failNoFile =>
              refine ⟨?_, ?_, ?_, ?_⟩
              · simp [writeFrags, hd, hw, allFragsOk]
              · intro k hk; simp [writeFrags, hd, hw] at hk
              · intro j hj; simp [fragLeft, hd, hw] at hj
              · intro k; simp [writeFrags, fragLeft, hd, hw]
          | failCreated =>
              refine ⟨?_, ?_, ?_, ?_⟩
              · simp [writeFrags, hd, hw, allFragsOk]
              · intro k hk; simp [writeFrags, hd, hw] at hk
              · intro j hj
                simp only [fragLeft, hd, hw, if_true, Option.some.injEq] at hj
                subst hj
                simp [writeFrags, hd, hw]
              · intro k
                simp only [writeFrags, fragLeft, hd, hw, if_true]
                by_cases hkf : k = FileKey.frag i
                · subst hkf; simp [addF]
                · simp [addF, hkf]
          | ok =>
              obtain ⟨ih1, ih2, ih3, ih4⟩ := ih (i + 1) (addF (.frag i) fs)
              refine ⟨?_, ?_, ?_, ?_⟩
              · simp [writeFrags, hd, hw, allFragsOk, ih1]
              · intro k hk
                simp only [writeFrags, hd, hw, if_true, List.mem_cons] at hk
                rcases hk with hk | hk
                · exact ⟨i, le_refl i, hk⟩
                · obtain ⟨j, hj1, hj2⟩ := ih2 k hk
                  exact ⟨j, by omega, hj2⟩
              · intro j hj
                simp only [fragLeft, hd, hw, if_true] at hj
                obtain ⟨hij, hnm⟩ := ih3 j hj
                refine ⟨by omega, ?_⟩
                simp only [writeFrags, hd, hw, if_true, List.mem_cons]
                rintro (h | h)
                · cases h; omega
                · exact hnm h
              · intro k
                simp only [writeFrags, fragLeft, hd, hw, if_true, List.mem_cons]
                rw [ih4 k]
                by_cases hkf : k = FileKey.frag i
                · subst hkf; simp [addF]
                · simp [addF, hkf]

/-- The file system `base64ToImage` leaves behind, starting from a fresh
request: its success flag is the conjunction of all step outcomes up to
the encode, and the files possibly left are the one fragment file whose
write failed after creating it (its defer was never registered) and the
merged output, the latter present exactly when all fragments succeeded and
the merge and create steps succeeded (the encode outcome does not matter:
the file exists from `os.Create` on). -/
theorem base64_final (e : CompEnv) :
    (base64ToImageM e emptyFS).1 =
        (allFragsOk e.frags && (e.mergeOk && (e.createOk && e.encodeOk))) ∧
      ∀ k, (base64ToImageM e emptyFS).2 k =
        (decide (∃ j, fragLeft e.frags 0 = some j ∧ k = FileKey.frag j) ||
          (decide (k = FileKey.merged) &&
            (allFragsOk e.frags && (e.mergeOk && e.createOk)))) := by
  obtain ⟨h1, h2, h3, h4⟩ := writeFrags_spec e.frags 0 emptyFS
  have hleakdef : ∀ k, k ∈ (writeFrags e.frags 0 emptyFS).2.2 →
      ¬ ∃ j, fragLeft e.frags 0 = some j ∧ k = FileKey.frag j := by
    rintro k hk ⟨j, hj, hkj⟩
    subst hkj
    exact (h3 j hj).2 hk
  have hval : ∀ k, k ∉ (writeFrags e.frags 0 emptyFS).2.2 →
      (writeFrags e.frags 0 emptyFS).2.1 k =
        decide (∃ j, fragLeft e.frags 0 = some j ∧ k = FileKey.frag j) := by
    intro k hk
    by_cases hl : ∃ j, fragLeft e.frags 0 = some j ∧ k = FileKey.frag j
    · simp [hl, (h4 k).mpr (Or.inr (Or.inl hl))]
    · have hne : ¬ (writeFrags e.frags 0 emptyFS).2.1 k = true := by
        intro hh
        rcases (h4 k).mp hh with h | h | h
        · exact hk h
        · exact hl h
        · simp [emptyFS] at h
      simp [hl]
      simpa using hne
  have hmem : ∀ k, k ∈ (writeFrags e.frags 0 emptyFS).2.2 →
      ∃ j, k = FileKey.frag j := fun k hk => ⟨(h2 k hk).choose, (h2 k hk).choose_spec.2⟩
  have hmnd : FileKey.merged ∉ (writeFrags e.frags 0 emptyFS).2.2 := by
    intro hm
    obtain ⟨j, hj⟩ := hmem _ hm
    cases hj
  constructor
  · cases hall : allFragsOk e.frags with
    | false =>
        have hw1 : (writeFrags e.frags 0 emptyFS).1 = false := by rw [h1, hall]
        simp [base64ToImageM, hw1]
    | true =>
        have hw1 : (writeFrags e.frags 0 emptyFS).1 = true := by rw [h1, hall]
        cases hm : e.mergeOk <;> cases hc : e.createOk <;> cases hE : e.encodeOk <;>
          simp [base64ToImageM, hw1, combineImagesM, hm, hc, hE]
  · intro k
    cases hall : allFragsOk e.frags with
    | false =>
        have hw1 : (writeFrags e.frags 0 emptyFS).1 = false := by rw [h1, hall]
        simp only [base64ToImageM, hw1, Bool.false_eq_true, if_false]
        rw [runDefers_eval]
        by_cases hk : k ∈ (writeFrags e.frags 0 emptyFS).2.2
        · simp [hk, hleakdef k hk, hall]
        · rw [if_neg hk, hval k hk]
          simp [hall]
    | true =>
        have hw1 : (writeFrags e.frags 0 emptyFS).1 = true := by rw [h1, hall]
        have hleak : fragLeft e.frags 0 = none := fragLeft_none_of_allOk _ hall 0
        simp only [base64ToImageM, hw1, if_true]
        rw [runDefers_eval]
        by_cases hk : k ∈ (writeFrags e.frags 0 emptyFS).2.2
        · obtain ⟨j, hj⟩ := hmem k hk
          subst hj
          simp [hk, hleak]
        · cases hm : e.mergeOk <;> cases hc : e.createOk <;> cases hE : e.encodeOk <;>
            by_cases hkm : k = FileKey.merged <;>
            simp [combineImagesM, hm, hc, hE, hk, hkm, addF, hval k hk,
              hval FileKey.merged hmnd, hall, hmnd, hleak]

/--
C7, counterexample: with four good fragment payloads and a successful
merge and create, a failing `jpeg.Encode` makes `base64ToImage` return an
error before the deferred removal of the merged file in the handler was ever
registered -- the merged output `ID.jpg` is still present after the
pipeline returns.
-/
theorem scratch_cleanup_cex :
    compositeTail envEncodeFail emptyFS FileKey.merged = true := rfl

/--
C7, amended: after the compositing pipeline returns, a per-fragment
scratch file remains present exactly when its `os.WriteFile` failed after
creating the file (the loop then stopped on it with no deferred removal
registered); every fragment file whose write succeeded is absent on every
exit path.  The merged output file is absent on every exit path EXCEPT
those where it was created and the handler never registered its deferred
removal, i.e. it remains present exactly when all fragments succeeded, the
merge and create succeeded, and then either the encode failed or the
subsequent open failed.
-/
theorem scratch_cleanup_amended (e : CompEnv) :
    (∀ i, compositeTail e emptyFS (FileKey.frag i) =
        decide (fragLeft e.frags 0 = some i)) ∧
      compositeTail e emptyFS FileKey.merged =
        (allFragsOk e.frags &&
          (e.mergeOk && (e.createOk && (!e.encodeOk || !e.openOk)))) := by
  obtain ⟨hb1, hb2⟩ := base64_final e
  constructor
  · intro i
    simp only [compositeTail]
    split_ifs <;> simp [rmF, hb2]
  · cases hA : allFragsOk e.frags <;> cases hm : e.mergeOk <;>
      cases hc : e.createOk <;> cases hE : e.encodeOk <;> cases ho : e.openOk <;>
      simp only [compositeTail] <;> split_ifs <;> simp_all [rmF]

/-!
### C9: no partial result after a generation failure

In the marker-bearing evolutions a returned generation failure stops the
pipeline (no compositing, no image send) and swaps the working marker to
the failed one.  The earliest evolution (first program of main.go) lacks
the `return` after logging the fetch error: it continues into
`base64ToImage` with a nil fragment slice, then into the open and send
steps, and it has no markers at all.  (A transport-level generation
failure panics inside `fetchImages` before any of this; see C3.)
-/

/--
C9, counterexample: in the earliest evolution, when the generation call
fails (here: retry budget of 1 exhausted by a 503), the handler still
proceeds to compositing and to the send attempt, and no marker effect of
any kind occurs -- the trace after the failed generate is compositing,
open and send, with no marker operations in it.
-/
theorem genfail_v1_cex :
    handlerV1 "BOT" soleUserID ("/dalle cat".toList) envV1Fail =
      (.sendFailed,
        [.generate ("cat".toList), .composite, .openFile,
          .sendImage ("cat".toList)]) ∧
      (fetchImagesGo ("cat".toList) 1 schedFail1).result = .err (exhaustMsg 2) ∧
      Effect.composite ∈
        (handlerV1 "BOT" soleUserID ("/dalle cat".toList) envV1Fail).2 :=
  ⟨rfl, rfl, by decide⟩

/--
C9, amended: in the marker-bearing evolutions (part_001 modelled here),
when the generation call of the accepted trigger returns an error (retry budget
exhausted or malformed body -- not a transport panic) and the initial
marker add succeeded, the handler performs exactly: add 🤖, the generation
call, and the 🤖→❌ swap -- in particular it never reaches the compositing
stage and never sends an image message, so no partial result is delivered,
and the failed marker is surfaced.  In the earliest evolution the handler
instead proceeds (see the counterexample).
-/
theorem genfail_amended (bot author : String) (content : GoStr) (e : EnvP1)
    (msg : String)
    (hlen : 7 < content.length)
    (hpre : (lowerL content).take 7 = dalleL)
    (hauthor : author ≠ bot)
    (hhelp : trimSpaceL ((lowerL content).drop 7) ≠ helpL)
    (hmark : e.addMarkOk = true)
    (hfetch : (fetchImagesGo (trimSpaceL ((lowerL content).drop 7))
      e.retries e.sched).result = .err msg) :
    handlerP1 bot author content e =
      (.genFailed,
        [.addMark robotE, .generate (trimSpaceL ((lowerL content).drop 7)),
          .swapMark robotE failE]) := by
  have hl : ¬ (lowerL content).length ≤ 7 := by
    simp only [lowerL, List.length_map]; omega
  simp only [handlerP1]
  rw [if_neg (by rintro (h | h | h); exacts [hl h, h hpre, hauthor h]),
    if_neg hhelp, if_pos hmark]
  simp [hfetch]

/-- C9 witness: `"/dalle cat"` against a one-attempt budget answered by a
503 yields exactly the marker add, the generation call and the 🤖→❌
swap. -/
theorem genfail_amended_witness :
    handlerP1 "BOT" "u" ("/dalle cat".toList) envP1Fail =
      (.genFailed,
        [.addMark robotE, .generate ("cat".toList), .swapMark robotE failE]) := by
  have h := genfail_amended "BOT" "u" ("/dalle cat".toList) envP1Fail
    (exhaustMsg 2) (by decide) (by decide) (by decide) (by decide) rfl rfl
  exact h
